import Mathlib

/-!
Verification development for the property-matcher dashboard.

The program keeps four flat CSV tables (units, notices, waitlist, matches)
and runs a matching routine between available units and waitlisted
applicants.  We embed the tables as a `Df` structure (a header of column
names plus rows of optional string cells, `none` standing for a missing
value / NaN) and translate the program's operations over pandas frames
into executable Lean functions on `Df`.
-/

namespace PropertyMatcher

/-- A cell of a table: `none` is a missing value (NaN); values are kept as
the raw text read from the CSV. -/
abbrev Cell := Option String

/-- A data frame: a header of column names and rows of cells, each row
aligned positionally with the header. -/
structure Df where
  header : List String
  rows : List (List Cell)
deriving DecidableEq

/-- The empty frame (`pd.DataFrame()`): zero rows, zero columns. -/
def Df.empty : Df := ⟨[], []⟩

/-- A frame is rectangular when every row has exactly one cell per header
column.  Real pandas frames always satisfy this. -/
def Df.Rect (df : Df) : Prop := ∀ r ∈ df.rows, r.length = df.header.length

instance (df : Df) : Decidable df.Rect :=
  inferInstanceAs (Decidable (∀ r ∈ df.rows, r.length = df.header.length))

/-- Cell of a row at a column position (missing positions read as NaN). -/
def cellAt (r : List Cell) (j : Nat) : Cell := (r[j]?).getD none

/-- Index of the first column with the given name. -/
def colIdx : List String → String → Option Nat
  | [], _ => none
  | c :: cs, name => if c == name then some 0 else (colIdx cs name).map (· + 1)

/-- Cell of a row in the column of the given name. -/
def cellByName (header : List String) (r : List Cell) (c : String) : Cell :=
  match colIdx header c with
  | some j => cellAt r j
  | none => none

/-- `astype(str)` on a single cell: NaN prints as `"nan"`, text is kept. -/
def astypeStr : Cell → String
  | none => "nan"
  | some s => s

/-- Whitespace test used for trimming. -/
def isWS (c : Char) : Bool := c == ' ' || c == '\t' || c == '\n' || c == '\r'

/-- Strip leading and trailing whitespace from a string. -/
def trimStr (s : String) : String :=
  ⟨((s.data.dropWhile isWS).reverse.dropWhile isWS).reverse⟩

/-- Does `s` start with `p`?  (Used for the `^Unnamed` column filter.) -/
def startsWithStr (s p : String) : Bool := s.data.take p.data.length == p.data

/-- `df[c] = v`: overwrite the whole column `c` with the constant cell `v`,
appending a new column when `c` is not yet a column. -/
def setColConst (df : Df) (c : String) (v : Cell) : Df :=
  match colIdx df.header c with
  | some j => ⟨df.header, df.rows.map (fun r => r.set j v)⟩
  | none => ⟨df.header ++ [c], df.rows.map (fun r => r ++ [v])⟩

/-- `df.drop(columns=[c])` (no-op when the column is absent). -/
def dropCol (df : Df) (c : String) : Df :=
  match colIdx df.header c with
  | some j => ⟨df.header.eraseIdx j, df.rows.map (fun r => r.eraseIdx j)⟩
  | none => df

/-- `df[c].tolist()`: the cells of column `c`, or `none` when the column is
absent (a `KeyError` in the program). -/
def getColVals (df : Df) (c : String) : Option (List Cell) :=
  (colIdx df.header c).map (fun j => df.rows.map (fun r => cellAt r j))

/-- `pd.merge(u, w, on="key", suffixes=("_unit", "_applicant"))`.
Only column names occurring in BOTH frames (other than the join key) are
suffixed; the key column is kept once, in its left-frame position.  Rows
are paired whenever their key cells agree. -/
def mergeOnKey (u w : Df) : Except String Df :=
  match colIdx u.header "key", colIdx w.header "key" with
  | some lj, some rj =>
    let lOther := u.header.eraseIdx lj
    let rOther := w.header.eraseIdx rj
    let hdr :=
      (u.header.map (fun c =>
        if c == "key" then c else if c ∈ rOther then c ++ "_unit" else c)) ++
      (rOther.map (fun c => if c ∈ lOther then c ++ "_applicant" else c))
    let rows := u.rows.flatMap (fun ru =>
      ((w.rows.filter (fun rw => cellAt rw rj == cellAt ru lj)).map
        (fun rw => ru ++ rw.eraseIdx rj)))
    Except.ok ⟨hdr, rows⟩
  | _, _ => Except.error "KeyError: key"

/-- `pandas` `unique().tolist()`: deduplicate keeping first occurrences. -/
def uniqueFirst : List String → List String :=
  go []
where
  /-- Worker carrying the values seen so far. -/
  go : List String → List String → List String
  | _, [] => []
  | seen, a :: l => if a ∈ seen then go seen l else a :: go (a :: seen) l

/-- One row of the persisted units table after the marking step: rows whose
`Unit` value is among the matched ids get `Matched` set to `"Matched"`. -/
def markRow (header : List String) (mi : Nat) (mu : List String) (r : List Cell) : List Cell :=
  if astypeStr (cellByName header r "Unit") ∈ mu then r.set mi (some "Matched") else r

/-- `full_units_df.loc[full_units_df["Unit"].astype(str).isin(mu), "Matched"] = "Matched"`:
raises `KeyError` when there is no `Unit` column; updates the `Matched`
column in place when it exists, and otherwise appends a new `Matched`
column holding `"Matched"` on selected rows and NaN elsewhere. -/
def markMatched (df : Df) (mu : List String) : Except String Df :=
  match colIdx df.header "Unit" with
  | none => Except.error "KeyError: Unit"
  | some _ =>
    match colIdx df.header "Matched" with
    | some mi => Except.ok ⟨df.header, df.rows.map (markRow df.header mi mu)⟩
    | none => Except.ok ⟨df.header ++ ["Matched"],
        df.rows.map (fun r =>
          r ++ [if astypeStr (cellByName df.header r "Unit") ∈ mu
                then some "Matched" else none])⟩

/-- Lines 144-146 of the program: when the units frame has no `Matched`
column, create one holding `"Available"` for every row. -/
def ensureMatched (df : Df) : Df :=
  if "Matched" ∈ df.header then df else setColConst df "Matched" (some "Available")

/-- Line 149: keep only rows with `Matched` equal (as text) to `"Available"`. -/
def availFilter (df : Df) : Df :=
  ⟨df.header,
   df.rows.filter (fun r => astypeStr (cellByName df.header r "Matched") == "Available")⟩

/-- Result of a matching run: the matches frame returned and the units
frame persisted back to `units.csv`. -/
structure RunResult where
  matchesDf : Df
  unitsDf : Df
deriving DecidableEq

/-- `run_matching_logic` (src/app.py lines 142-179).  The `full` argument is
the persisted units table re-read from `units.csv` at line 171.  The
`notices_df` parameter of the program is never read by the function, so it
does not appear here.  Fallible column accesses surface as `Except.error`
(`KeyError` in the program). -/
def run_matching_logic (units waitlist full : Df) : Except String RunResult :=
  let avail := availFilter (ensureMatched units)
  if avail.rows.isEmpty || waitlist.rows.isEmpty then
    Except.ok ⟨Df.empty, full⟩
  else
    let uk := setColConst avail "key" (some "1")
    let wk := setColConst waitlist "key" (some "1")
    match mergeOnKey uk wk with
    | Except.error e => Except.error e
    | Except.ok merged =>
      let matched0 := dropCol merged "key"
      if matched0.rows.isEmpty then
        Except.ok ⟨matched0, full⟩
      else
        let matched1 := setColConst (setColConst matched0 "score" (some "1"))
          "match_status" (some "Pending")
        match getColVals matched1 "Unit_unit" with
        | none => Except.error "KeyError: Unit_unit"
        | some vs =>
          match markMatched full (uniqueFirst (vs.map astypeStr)) with
          | Except.error e => Except.error e
          | Except.ok p => Except.ok ⟨matched1, p⟩

/-! ## Record store: `load_csv`, `save_csv` and the table cache -/

/-- Abstract content of a file path: absent, present but empty, or a
parsed table. -/
inductive FileData where
  | missing
  | emptyFile
  | table (df : Df)
deriving DecidableEq

/-- Line 30 of the program: drop every column whose header matches the
regex `^Unnamed`, together with its cells. -/
def dropUnnamed (df : Df) : Df :=
  let keep := df.header.enum.filter (fun jc => !(startsWithStr jc.2 "Unnamed"))
  ⟨keep.map (fun jc => jc.2), df.rows.map (fun r => keep.map (fun jc => cellAt r jc.1))⟩

/-- `load_csv` (src/app.py lines 22-31) on the content of a path: a missing
file and an empty file both load as the empty frame; otherwise the parsed
table with auto-generated `Unnamed` index columns dropped. -/
def load_csv : FileData → Df
  | FileData.missing => Df.empty
  | FileData.emptyFile => Df.empty
  | FileData.table df => dropUnnamed df

/-- The process state: file contents by path, plus the `st.cache_data`
memo of `load_csv` results keyed by path. -/
structure Store where
  fs : String → FileData
  cache : String → Option Df

/-- A cached load: return the memoised frame when present, otherwise read
the file, memoise and return the result. -/
def load_cached (s : Store) (path : String) : Df × Store :=
  match s.cache path with
  | some df => (df, s)
  | none =>
    let df := load_csv (s.fs path)
    (df, ⟨s.fs, fun p => if p == path then some df else s.cache p⟩)

/-- `save_csv` (src/app.py lines 34-36): overwrite the file with the frame,
then `load_csv.clear()` — the whole cache is invalidated. -/
def save_csv (s : Store) (path : String) (df : Df) : Store :=
  ⟨fun p => if p == path then FileData.table df else s.fs p, fun _ => none⟩

/-! ## Weighted best-fit engine (spec §4.1, mode 2)

The weighted best-fit operation `run_best_fit` is part of the system's
contract but is not present in the source tree, so it is modelled from
the specification text. -/

/-- Modelled from the spec: a Unit record with the fields the best-fit
engine reads (`Unit`, `Ready Date`, `Floor Plan`, `Floor`, `Direction`). -/
structure SpecUnit where
  unit : String
  readyDate : String
  floorPlan : String
  floor : String
  direction : String
deriving DecidableEq

/-- Modelled from the spec: a waitlist entry with `Applicant`, ranked
preferences `Floor Plan 1/2/3`, `Floor` and `Direction`. -/
structure SpecApplicant where
  applicant : String
  floorPlan1 : String
  floorPlan2 : String
  floorPlan3 : String
  floor : String
  direction : String
deriving DecidableEq

/-- Modelled from the spec: a match row `Applicant`, `Unit`, `Score`
(non-negative integer), `Floor Plan Match`, `Ready Date`. -/
structure SpecMatch where
  applicant : String
  unit : String
  score : Nat
  floorPlanMatch : String
  readyDate : String
deriving DecidableEq

/-- Modelled from the spec: priority `i` (zero-based) of `k` priorities
weighs `10 ^ (k - 1 - i)`. -/
def weight (k i : Nat) : Nat := 10 ^ (k - 1 - i)

/-- Modelled from the spec: the `Floor Plan` sub-weight — 100/50/25 when
the unit's floor plan equals the applicant's 1st/2nd/3rd preference. -/
def floorPlanSub (u : SpecUnit) (a : SpecApplicant) : Nat :=
  if u.floorPlan == a.floorPlan1 then 100
  else if u.floorPlan == a.floorPlan2 then 50
  else if u.floorPlan == a.floorPlan3 then 25
  else 0

/-- Modelled from the spec: the contribution of one priority attribute with
weight `w`: the `Floor Plan` sub-weight times `w`; full `w` on exact
(trimmed, for `Floor`) equality for `Floor` and `Direction`; unrecognized
attribute names contribute nothing. -/
def attrScore (u : SpecUnit) (a : SpecApplicant) (attr : String) (w : Nat) : Nat :=
  if attr == "Floor Plan" then floorPlanSub u a * w
  else if attr == "Floor" then (if trimStr u.floor == trimStr a.floor then w else 0)
  else if attr == "Direction" then (if u.direction == a.direction then w else 0)
  else 0

/-- Modelled from the spec: the total score of a unit for an applicant —
the sum over the priority list of each attribute's contribution. -/
def totalScore (prios : List String) (u : SpecUnit) (a : SpecApplicant) : Nat :=
  (prios.enum.map (fun ia => attrScore u a ia.2 (weight prios.length ia.1))).sum

/-- Modelled from the spec: a unit is eligible when its `Ready Date` is
non-blank after trimming whitespace. -/
def eligibleUnit (u : SpecUnit) : Bool := trimStr u.readyDate ≠ ""

/-- One step of the greedy scan: keep the incumbent unless the new unit
scores strictly higher (ties keep the first-seen unit). -/
def bestStep (score : SpecUnit → Nat) (b v : SpecUnit) : SpecUnit :=
  if score v > score b then v else b

/-- Modelled from the spec: scan the eligible units in input order and keep
the one with the strictly greatest score; `none` when there are no units. -/
def pickBest (score : SpecUnit → Nat) : List SpecUnit → Option SpecUnit
  | [] => none
  | u :: us => some (us.foldl (bestStep score) u)

/-- Modelled from the spec: the match row emitted for an applicant and the
unit chosen for them. -/
def mkMatch (prios : List String) (a : SpecApplicant) (u : SpecUnit) : SpecMatch :=
  ⟨a.applicant, u.unit, totalScore prios u a, u.floorPlan, u.readyDate⟩

/-- Modelled from the spec: `run_best_fit(units, waitlist, priorities)` —
filter to eligible units, then emit, per applicant in waitlist order, one
row pairing them with their best-fit unit; an applicant with zero eligible
units yields no row. -/
def run_best_fit (units : List SpecUnit) (waitlist : List SpecApplicant)
    (prios : List String) : List SpecMatch :=
  waitlist.filterMap (fun a =>
    (pickBest (fun u => totalScore prios u a) (units.filter eligibleUnit)).map
      (mkMatch prios a))

/-- The matches table a best-fit run persists, as a frame. -/
def matchesToDf (ms : List SpecMatch) : Df :=
  ⟨["Applicant", "Unit", "Score", "Floor Plan Match", "Ready Date"],
   ms.map (fun m => [some m.applicant, some m.unit, some (toString m.score),
                     some m.floorPlanMatch, some m.readyDate])⟩

/-! ## Concrete tables used as test inputs -/

/-- Two available units with non-blank ready dates. -/
def exUnits2 : Df :=
  ⟨["Unit", "Ready Date", "Matched"],
   [[some "U1", some "2024-01-01", some "Available"],
    [some "U2", some "2024-01-05", some "Available"]]⟩

/-- Three applicants with the documented waitlist schema (no `Unit` column). -/
def exWait3 : Df :=
  ⟨["Applicant"], [[some "A"], [some "B"], [some "C"]]⟩

/-- Three applicants whose table also carries a `Unit` column. -/
def exWait3U : Df :=
  ⟨["Applicant", "Unit"],
   [[some "A", some "x"], [some "B", some "y"], [some "C", some "z"]]⟩

/-- A single available unit whose `Ready Date` is blank. -/
def exUnitsBlank : Df :=
  ⟨["Unit", "Ready Date", "Matched"], [[some "U1", some "", some "Available"]]⟩

/-- One applicant whose table carries a `Unit` column. -/
def exWait1U : Df :=
  ⟨["Applicant", "Unit"], [[some "A", some "w"]]⟩

/-- One available unit used as the run input for the marking test. -/
def exUnits1 : Df :=
  ⟨["Unit", "Ready Date", "Matched"], [[some "U1", some "2024-01-01", some "Available"]]⟩

/-- The persisted units table for the marking test: `U1` plus an extra unit
`U2` that appears in no pair. -/
def exFull2 : Df :=
  ⟨["Unit", "Ready Date", "Matched"],
   [[some "U1", some "2024-01-01", some "Available"],
    [some "U2", some "2024-01-05", some "Available"]]⟩

/-- The matches frame the marking test run returns. -/
def exMatches1 : Df :=
  ⟨["Unit_unit", "Ready Date", "Matched", "Applicant", "Unit_applicant",
    "score", "match_status"],
   [[some "U1", some "2024-01-01", some "Available", some "A", some "w",
     some "1", some "Pending"]]⟩

/-- The persisted units table after the marking test run. -/
def exPersisted2 : Df :=
  ⟨["Unit", "Ready Date", "Matched"],
   [[some "U1", some "2024-01-01", some "Matched"],
    [some "U2", some "2024-01-05", some "Available"]]⟩

/-- A units table with no `Matched` column (run input for the
column-creation test). -/
def exUnitsNoCol : Df :=
  ⟨["Unit", "Ready Date"], [[some "U1", some "2024-01-01"]]⟩

/-- A persisted units table with no `Matched` column: `U1` plus an extra
unit `U2` that appears in no pair. -/
def exFullNoCol : Df :=
  ⟨["Unit", "Ready Date"],
   [[some "U1", some "2024-01-01"], [some "U2", some "2024-01-05"]]⟩

/-- The matches frame the column-creation test run returns. -/
def exMatchesNoCol : Df :=
  ⟨["Unit_unit", "Ready Date", "Matched", "Applicant", "Unit_applicant",
    "score", "match_status"],
   [[some "U1", some "2024-01-01", some "Available", some "A", some "w",
     some "1", some "Pending"]]⟩

/-- The persisted units table after the column-creation test run: the new
`Matched` column holds `"Matched"` for `U1` and a missing value for `U2`. -/
def exPersistedNoCol : Df :=
  ⟨["Unit", "Ready Date", "Matched"],
   [[some "U1", some "2024-01-01", some "Matched"],
    [some "U2", some "2024-01-05", none]]⟩

/-- The full applicant-by-unit product frame returned when `exUnits2` is
matched against `exWait3U`. -/
def exMatches6 : Df :=
  ⟨["Unit_unit", "Ready Date", "Matched", "Applicant", "Unit_applicant",
    "score", "match_status"],
   [[some "U1", some "2024-01-01", some "Available", some "A", some "x", some "1", some "Pending"],
    [some "U1", some "2024-01-01", some "Available", some "B", some "y", some "1", some "Pending"],
    [some "U1", some "2024-01-01", some "Available", some "C", some "z", some "1", some "Pending"],
    [some "U2", some "2024-01-05", some "Available", some "A", some "x", some "1", some "Pending"],
    [some "U2", some "2024-01-05", some "Available", some "B", some "y", some "1", some "Pending"],
    [some "U2", some "2024-01-05", some "Available", some "C", some "z", some "1", some "Pending"]]⟩

/-- The spec's example unit `A1`. -/
def exC8Unit : SpecUnit := ⟨"A1", "2024-01-01", "Floor Plan 1", "3", "N"⟩

/-- The spec's example applicant `Bob`. -/
def exC8App : SpecApplicant := ⟨"Bob", "Floor Plan 1", "", "", "3", "N"⟩

/-! ## Basic lemmas about the frame model -/

lemma colIdx_eq_none_iff (hs : List String) (c : String) : colIdx hs c = none ↔ c ∉ hs := by
  induction hs with
  | nil => simp [colIdx]
  | cons a hs ih =>
    by_cases h : a = c
    · subst h; simp [colIdx]
    · simp [colIdx, h, Option.map_eq_none, ih, Ne.symm h]

lemma colIdx_lt_length {hs : List String} {c : String} {j : Nat}
    (h : colIdx hs c = some j) : j < hs.length := by
  induction hs generalizing j with
  | nil => simp [colIdx] at h
  | cons a hs ih =>
    by_cases hac : a = c
    · subst hac
      simp only [colIdx, beq_self_eq_true, if_true, Option.some.injEq] at h
      simp only [List.length_cons]
      omega
    · simp only [colIdx, beq_iff_eq, if_neg hac, Option.map_eq_some'] at h
      obtain ⟨j0, hj0, rfl⟩ := h
      have := ih hj0
      simp only [List.length_cons]
      omega

lemma colIdx_append_self {hs : List String} {c : String}
    (h : colIdx hs c = none) : colIdx (hs ++ [c]) c = some hs.length := by
  induction hs with
  | nil => simp [colIdx]
  | cons a hs ih =>
    by_cases hac : a = c
    · subst hac; simp [colIdx] at h
    · simp only [colIdx, beq_iff_eq, if_neg hac, Option.map_eq_none'] at h
      simp only [List.cons_append, colIdx, beq_iff_eq, if_neg hac, ih h,
        Option.map_some', List.length_cons]
      rw [show hs.append [c] = hs ++ [c] from rfl, ih h]
      rfl

lemma cellAt_set_self {r : List Cell} {j : Nat} (v : Cell) (h : j < r.length) :
    cellAt (r.set j v) j = v := by
  rw [cellAt, List.getElem?_set_self h]
  rfl

lemma cellAt_append_self {r : List Cell} {n : Nat} (v : Cell) (h : r.length = n) :
    cellAt (r ++ [v]) n = v := by
  subst h
  rw [cellAt, List.getElem?_concat_length]
  rfl

lemma cellByName_append_self {header : List String} {c : String} {r : List Cell} (v : Cell)
    (hc : c ∉ header) (hr : r.length = header.length) :
    cellByName (header ++ [c]) (r ++ [v]) c = v := by
  rw [cellByName, colIdx_append_self ((colIdx_eq_none_iff header c).mpr hc)]
  exact cellAt_append_self v hr

/-! ## Lemmas about the marking step -/

lemma markMatched_header_of_mem {df : Df} {mu : List String} {p : Df}
    (hcol : "Matched" ∈ df.header) (h : markMatched df mu = Except.ok p) :
    p.header = df.header := by
  unfold markMatched at h
  cases hu : colIdx df.header "Unit" with
  | none => rw [hu] at h; cases h
  | some ju =>
    rw [hu] at h
    cases hmc : colIdx df.header "Matched" with
    | none => exact absurd hcol ((colIdx_eq_none_iff _ _).mp hmc)
    | some mi =>
      rw [hmc] at h
      injection h with h
      subst h
      rfl

lemma markMatched_marked {df : Df} {mu : List String} {p : Df} (hrect : Df.Rect df)
    (h : markMatched df mu = Except.ok p) {i : Nat} {r0 : List Cell}
    (hi : df.rows[i]? = some r0)
    (hin : astypeStr (cellByName df.header r0 "Unit") ∈ mu) :
    ∃ r, p.rows[i]? = some r ∧ cellByName p.header r "Matched" = some "Matched" := by
  have hr0len : r0.length = df.header.length := hrect r0 (List.getElem?_mem hi)
  unfold markMatched at h
  cases hu : colIdx df.header "Unit" with
  | none => rw [hu] at h; cases h
  | some ju =>
    rw [hu] at h
    cases hmc : colIdx df.header "Matched" with
    | some mi =>
      rw [hmc] at h
      injection h with h
      subst h
      refine ⟨markRow df.header mi mu r0, ?_, ?_⟩
      · simp [List.getElem?_map, hi]
      · rw [markRow, if_pos hin]
        show cellByName df.header (r0.set mi (some "Matched")) "Matched" = some "Matched"
        rw [cellByName, hmc]
        exact cellAt_set_self _ (by rw [hr0len]; exact colIdx_lt_length hmc)
    | none =>
      rw [hmc] at h
      injection h with h
      subst h
      refine ⟨r0 ++ [some "Matched"], ?_, ?_⟩
      · simp [List.getElem?_map, hi, if_pos hin]
      · exact cellByName_append_self _ ((colIdx_eq_none_iff _ _).mp hmc) hr0len

lemma markMatched_unmarked {df : Df} {mu : List String} {p : Df}
    (hcol : "Matched" ∈ df.header) (h : markMatched df mu = Except.ok p)
    {i : Nat} {r0 : List Cell} (hi : df.rows[i]? = some r0)
    (hnotin : astypeStr (cellByName df.header r0 "Unit") ∉ mu) :
    p.rows[i]? = some r0 := by
  unfold markMatched at h
  cases hu : colIdx df.header "Unit" with
  | none => rw [hu] at h; cases h
  | some ju =>
    rw [hu] at h
    cases hmc : colIdx df.header "Matched" with
    | none => exact absurd hcol ((colIdx_eq_none_iff _ _).mp hmc)
    | some mi =>
      rw [hmc] at h
      injection h with h
      subst h
      simp [List.getElem?_map, hi, markRow, if_neg hnotin]

lemma markMatched_append {df : Df} {mu : List String} {p : Df}
    (hnocol : "Matched" ∉ df.header) (h : markMatched df mu = Except.ok p) :
    p.header = df.header ++ ["Matched"] ∧
    ∀ (i : Nat) (r0 : List Cell), df.rows[i]? = some r0 →
      p.rows[i]? = some (r0 ++
        [if astypeStr (cellByName df.header r0 "Unit") ∈ mu
         then some "Matched" else none]) := by
  unfold markMatched at h
  cases hu : colIdx df.header "Unit" with
  | none => rw [hu] at h; cases h
  | some ju =>
    rw [hu] at h
    cases hmc : colIdx df.header "Matched" with
    | some mi => exact absurd ((colIdx_eq_none_iff _ _).mpr hnocol) (by simp [hmc])
    | none =>
      rw [hmc] at h
      injection h with h
      subst h
      refine ⟨rfl, fun (i : Nat) (r0 : List Cell) hi => ?_⟩
      simp [List.getElem?_map, hi]

/-! ## Inversion of a successful, non-empty matching run -/

lemma run_ok_nonempty {units waitlist full : Df} {m p : Df}
    (h : run_matching_logic units waitlist full = Except.ok ⟨m, p⟩)
    (hm : m.rows ≠ []) :
    ∃ vs, getColVals m "Unit_unit" = some vs ∧
      markMatched full (uniqueFirst (vs.map astypeStr)) = Except.ok p := by
  simp only [run_matching_logic] at h
  split at h
  · injection h with h
    injection h with h1 h2
    subst h1
    exact absurd rfl hm
  · split at h
    · cases h
    · split at h
      · injection h with h
        injection h with h1 h2
        subst h1
        rename_i hemp
        rw [List.isEmpty_iff] at hemp
        exact absurd hemp hm
      · split at h
        · cases h
        next vs heq2 =>
          split at h
          · cases h
          next p0 heq3 =>
            injection h with h
            injection h with h1 h2
            subst h1
            subst h2
            exact ⟨vs, heq2, heq3⟩

/-! ## Lemmas for the load path and the best-fit engine -/

lemma filterMap_some_map {α β : Type} (g : α → β) (l : List α) :
    l.filterMap (fun a => some (g a)) = l.map g := by
  induction l with
  | nil => rfl
  | cons a l ih => simp [List.filterMap_cons, ih]

lemma enumFrom_filter_snd_map {α : Type} (q : α → Bool) (n : Nat) (l : List α) :
    ((List.enumFrom n l).filter (fun jc => q jc.2)).map (fun jc => jc.2) = l.filter q := by
  induction l generalizing n with
  | nil => rfl
  | cons a l ih =>
    simp only [List.enumFrom, List.filter]
    cases hqa : q a <;> simp [hqa, ih]

lemma dropUnnamed_header (df : Df) :
    (dropUnnamed df).header = df.header.filter (fun c => !(startsWithStr c "Unnamed")) := by
  simp only [dropUnnamed]
  rw [show df.header.enum = List.enumFrom 0 df.header from rfl]
  exact enumFrom_filter_snd_map (fun c => !(startsWithStr c "Unnamed")) 0 df.header

lemma foldl_bestStep_spec (score : SpecUnit → Nat) (l : List SpecUnit) (a : SpecUnit) :
    ∃ pre post, a :: l = pre ++ (l.foldl (bestStep score) a) :: post ∧
      (∀ v ∈ pre, score v < score (l.foldl (bestStep score) a)) ∧
      (∀ v ∈ a :: l, score v ≤ score (l.foldl (bestStep score) a)) := by
  induction l generalizing a with
  | nil => exact ⟨[], [], rfl, by simp, by simp⟩
  | cons u us ih =>
    rw [List.foldl_cons]
    by_cases hc : score u > score a
    · rw [show bestStep score a u = u from if_pos hc]
      obtain ⟨pre, post, hdec, hlt, hle⟩ := ih u
      refine ⟨a :: pre, post, ?_, ?_, ?_⟩
      · rw [List.cons_append, ← hdec]
      · intro v hv
        rcases List.mem_cons.mp hv with rfl | hv
        · exact lt_of_lt_of_le hc (hle u (List.mem_cons_self u us))
        · exact hlt v hv
      · intro v hv
        rcases List.mem_cons.mp hv with rfl | hv
        · exact le_of_lt (lt_of_lt_of_le hc (hle u (List.mem_cons_self u us)))
        · exact hle v hv
    · rw [show bestStep score a u = a from if_neg hc]
      have huA : score u ≤ score a := Nat.le_of_not_lt hc
      obtain ⟨pre, post, hdec, hlt, hle⟩ := ih a
      have haR : score a ≤ score (us.foldl (bestStep score) a) :=
        hle a (List.mem_cons_self a us)
      cases pre with
      | nil =>
        rw [List.nil_append] at hdec
        injection hdec with h1 h2
        refine ⟨[], u :: us, ?_, by simp, ?_⟩
        · rw [List.nil_append, ← h1]
        · intro v hv
          rcases List.mem_cons.mp hv with rfl | hv
          · exact haR
          · rcases List.mem_cons.mp hv with rfl | hv
            · exact le_trans huA haR
            · exact hle v (List.mem_cons_of_mem a hv)
      | cons b pre =>
        rw [List.cons_append] at hdec
        injection hdec with h1 h2
        have haLt : score a < score (us.foldl (bestStep score) a) := by
          nth_rewrite 1 [h1]
          exact hlt b (List.mem_cons_self b pre)
        refine ⟨a :: u :: pre, post, ?_, ?_, ?_⟩
        · rw [List.cons_append, List.cons_append, ← h2]
        · intro v hv
          rcases List.mem_cons.mp hv with rfl | hv
          · exact haLt
          · rcases List.mem_cons.mp hv with rfl | hv
            · exact lt_of_le_of_lt huA haLt
            · exact hlt v (List.mem_cons_of_mem b hv)
        · intro v hv
          rcases List.mem_cons.mp hv with rfl | hv
          · exact le_of_lt haLt
          · rcases List.mem_cons.mp hv with rfl | hv
            · exact le_of_lt (lt_of_le_of_lt huA haLt)
            · exact hle v (List.mem_cons_of_mem a hv)

/-! ## The claims -/

/-- C1: the claim says a cross-join run returns one row with score 1 and
status Pending for every available-unit/applicant pair (6 rows for 2 units
and 3 applicants).  On the documented waitlist schema (no `Unit` column)
the run instead raises `KeyError: Unit_unit`, because the merge only
suffixes column names occurring in both frames and `Unit` occurs only in
the units frame; when the waitlist does carry a `Unit` column the run
produces exactly the 6-row product with score 1 and status Pending. -/
theorem c1_cross_join_keyerror_on_documented_schema :
    run_matching_logic exUnits2 exWait3 exUnits2 = Except.error "KeyError: Unit_unit" ∧
    (run_matching_logic exUnits2 exWait3U exUnits2).toOption.map
        (fun r => r.matchesDf) = some exMatches6 ∧
    exMatches6.rows.length = 6 ∧
    getColVals exMatches6 "score" = some (List.replicate 6 (some "1")) ∧
    getColVals exMatches6 "match_status" = some (List.replicate 6 (some "Pending")) :=
  ⟨rfl, rfl, rfl, rfl, rfl⟩

/-- C2: the claim says a unit with a blank `Ready Date` never appears in
any output match row.  The matching run never consults `Ready Date` (its
`notices_df` parameter is unused), so a unit whose `Ready Date` is the
blank string — blank even after trimming — and whose status is Available
appears in the returned matches. -/
theorem c2_blank_ready_date_unit_is_matched :
    trimStr "" = "" ∧
    (run_matching_logic exUnitsBlank exWait1U exUnitsBlank).toOption.map
        (fun r => (r.matchesDf.rows.length, getColVals r.matchesDf "Unit_unit",
                   getColVals r.matchesDf "Ready Date")) =
      some (1, some [some "U1"], some [some ""]) :=
  ⟨rfl, rfl⟩

/-- C3: if, after the run's availability filter, the units sequence is
empty, or the waitlist is empty, the run returns the empty match table
(and leaves the persisted units table untouched) rather than raising. -/
theorem c3_empty_filtered_input_returns_empty (units waitlist full : Df)
    (h : (availFilter (ensureMatched units)).rows = [] ∨ waitlist.rows = []) :
    run_matching_logic units waitlist full = Except.ok ⟨Df.empty, full⟩ := by
  have hcond : ((availFilter (ensureMatched units)).rows.isEmpty
      || waitlist.rows.isEmpty) = true := by
    rcases h with h | h <;> simp [h]
  simp [run_matching_logic, hcond]

/-- Witness for C3 at a concrete input: an empty waitlist. -/
theorem c3_empty_filtered_input_returns_empty_witness :
    run_matching_logic exUnits2 ⟨["Applicant"], []⟩ exFull2 = Except.ok ⟨Df.empty, exFull2⟩ :=
  c3_empty_filtered_input_returns_empty exUnits2 ⟨["Applicant"], []⟩ exFull2 (Or.inr rfl)

/-- C4 counterexample: a successful cross-join matching run returns rows
with the merged unit+applicant columns plus `score` and `match_status`,
not the claimed five-column `Applicant`/`Unit`/`Score`/`Floor Plan
Match`/`Ready Date` schema. -/
theorem c4_cross_join_schema_counterexample :
    (run_matching_logic exUnits2 exWait3U exUnits2).toOption.map
        (fun r => r.matchesDf.header) =
      some ["Unit_unit", "Ready Date", "Matched", "Applicant", "Unit_applicant",
            "score", "match_status"] ∧
    (["Unit_unit", "Ready Date", "Matched", "Applicant", "Unit_applicant",
      "score", "match_status"] : List String) ≠
      ["Applicant", "Unit", "Score", "Floor Plan Match", "Ready Date"] :=
  ⟨rfl, by decide⟩

/-- C4 amended: every row of the matches table produced by a weighted
best-fit matching run has exactly the schema `Applicant`, `Unit`, `Score`
(a non-negative integer), `Floor Plan Match`, `Ready Date`; the cross-join
run's rows instead carry the merged columns plus `score`/`match_status`. -/
theorem c4_best_fit_match_schema (units : List SpecUnit)
    (waitlist : List SpecApplicant) (prios : List String) :
    (matchesToDf (run_best_fit units waitlist prios)).header =
      ["Applicant", "Unit", "Score", "Floor Plan Match", "Ready Date"] ∧
    Df.Rect (matchesToDf (run_best_fit units waitlist prios)) := by
  refine ⟨rfl, ?_⟩
  intro r hr
  simp only [matchesToDf] at hr ⊢
  obtain ⟨mm, _, rfl⟩ := List.mem_map.mp hr
  rfl

/-- C5: after a successful, non-empty cross-join run, every persisted unit
row whose `Unit` value is among the matched unit ids holds
`Matched = "Matched"`, and (when the persisted table already had a
`Matched` column) every other row is persisted unchanged. -/
theorem c5_matched_units_marked_others_unchanged
    (units waitlist full m p : Df) (hrect : Df.Rect full)
    (hrun : run_matching_logic units waitlist full = Except.ok ⟨m, p⟩)
    (hne : m.rows ≠ []) :
    ∃ vs, getColVals m "Unit_unit" = some vs ∧
      (∀ (i : Nat) (r0 : List Cell), full.rows[i]? = some r0 →
        astypeStr (cellByName full.header r0 "Unit") ∈ uniqueFirst (vs.map astypeStr) →
        ∃ r, p.rows[i]? = some r ∧ cellByName p.header r "Matched" = some "Matched") ∧
      ("Matched" ∈ full.header →
        p.header = full.header ∧
        ∀ (i : Nat) (r0 : List Cell), full.rows[i]? = some r0 →
          astypeStr (cellByName full.header r0 "Unit") ∉ uniqueFirst (vs.map astypeStr) →
          p.rows[i]? = some r0) := by
  obtain ⟨vs, hvs, hmark⟩ := run_ok_nonempty hrun hne
  exact ⟨vs, hvs,
    fun i r0 hi hin => markMatched_marked hrect hmark hi hin,
    fun hcol => ⟨markMatched_header_of_mem hcol hmark,
      fun i r0 hi hnin => markMatched_unmarked hcol hmark hi hnin⟩⟩

/-- Witness for C5 at a concrete input: `U1` is matched and marked, the
untouched `U2` row is persisted unchanged. -/
theorem c5_matched_units_marked_others_unchanged_witness :
    ∃ vs, getColVals exMatches1 "Unit_unit" = some vs ∧
      (∀ (i : Nat) (r0 : List Cell), exFull2.rows[i]? = some r0 →
        astypeStr (cellByName exFull2.header r0 "Unit") ∈ uniqueFirst (vs.map astypeStr) →
        ∃ r, exPersisted2.rows[i]? = some r ∧
          cellByName exPersisted2.header r "Matched" = some "Matched") ∧
      ("Matched" ∈ exFull2.header →
        exPersisted2.header = exFull2.header ∧
        ∀ (i : Nat) (r0 : List Cell), exFull2.rows[i]? = some r0 →
          astypeStr (cellByName exFull2.header r0 "Unit") ∉ uniqueFirst (vs.map astypeStr) →
          exPersisted2.rows[i]? = some r0) :=
  c5_matched_units_marked_others_unchanged exUnits1 exWait1U exFull2
    exMatches1 exPersisted2 (by decide) rfl (by decide)

/-- C6: loading a missing file yields the empty table with zero rows and
zero columns, loading a present-but-empty file yields the empty table, and
columns whose header starts with `Unnamed` are dropped on load. -/
theorem c6_load_csv_empty_and_unnamed :
    load_csv FileData.missing = Df.empty ∧
    (load_csv FileData.missing).header.length = 0 ∧
    (load_csv FileData.missing).rows.length = 0 ∧
    load_csv FileData.emptyFile = Df.empty ∧
    ∀ df : Df, (load_csv (FileData.table df)).header =
      df.header.filter (fun c => !(startsWithStr c "Unnamed")) :=
  ⟨rfl, rfl, rfl, rfl, fun df => dropUnnamed_header df⟩

/-- C7: saving a table wipes the whole load cache and overwrites the file,
so the next load of that path reads exactly the file content just written
instead of any previously cached table. -/
theorem c7_save_invalidates_cache (s : Store) (path : String) (df : Df) :
    (∀ q, (save_csv s path df).cache q = none) ∧
    (save_csv s path df).fs path = FileData.table df ∧
    (load_cached (save_csv s path df) path).1 = load_csv (FileData.table df) := by
  refine ⟨fun q => rfl, ?_, ?_⟩
  · simp [save_csv]
  · simp [load_cached, save_csv]

/-- C8: on the spec's single-unit example, the weighted best-fit run
returns exactly one row (`Bob`, `A1`, score `10011 = 100*100 + 1*10 + 1*1`,
`Floor Plan Match = "Floor Plan 1"`); with three priorities the weights are
100/10/1, and a 2nd/3rd-preference floor-plan match contributes sub-weight
50/25 times the `Floor Plan` weight. -/
theorem c8_weighted_best_fit_example :
    run_best_fit [exC8Unit] [exC8App] ["Floor Plan", "Floor", "Direction"] =
      [⟨"Bob", "A1", 10011, "Floor Plan 1", "2024-01-01"⟩] ∧
    weight 3 0 = 100 ∧ weight 3 1 = 10 ∧ weight 3 2 = 1 ∧
    totalScore ["Floor Plan", "Floor", "Direction"] exC8Unit
      ⟨"B", "x", "Floor Plan 1", "", "9", "S"⟩ = 5000 ∧
    totalScore ["Floor Plan", "Floor", "Direction"] exC8Unit
      ⟨"B", "x", "y", "Floor Plan 1", "9", "S"⟩ = 2500 := by
  refine ⟨by decide, by decide, by decide, by decide, by decide, by decide⟩

/-- C9: with a non-empty eligible units sequence, a best-fit run returns
exactly one row per applicant, in waitlist order; row `i` pairs applicant
`i` with a unit whose score is greatest among all eligible units and that
strictly beats every eligible unit listed before it (first-seen wins
ties). -/
theorem c9_one_row_per_applicant_first_best
    (units : List SpecUnit) (waitlist : List SpecApplicant) (prios : List String)
    (h : units.filter eligibleUnit ≠ []) :
    (run_best_fit units waitlist prios).length = waitlist.length ∧
    ∀ (i : Nat) (a : SpecApplicant), waitlist[i]? = some a →
      ∃ u pre post,
        (run_best_fit units waitlist prios)[i]? = some (mkMatch prios a u) ∧
        units.filter eligibleUnit = pre ++ u :: post ∧
        (∀ v ∈ pre, totalScore prios v a < totalScore prios u a) ∧
        (∀ v ∈ units.filter eligibleUnit, totalScore prios v a ≤ totalScore prios u a) := by
  obtain ⟨e, es, helig⟩ := List.exists_cons_of_ne_nil h
  have hrw : run_best_fit units waitlist prios =
      waitlist.map (fun a =>
        mkMatch prios a (es.foldl (bestStep (fun u => totalScore prios u a)) e)) := by
    unfold run_best_fit
    rw [helig]
    simp only [pickBest, Option.map_some']
    exact filterMap_some_map
      (fun a => mkMatch prios a (es.foldl (bestStep (fun u => totalScore prios u a)) e))
      waitlist
  constructor
  · rw [hrw, List.length_map]
  · intro i a hai
    obtain ⟨pre, post, hdec, hlt, hle⟩ :=
      foldl_bestStep_spec (fun u => totalScore prios u a) es e
    refine ⟨es.foldl (bestStep (fun u => totalScore prios u a)) e, pre, post, ?_, ?_, ?_, ?_⟩
    · rw [hrw, List.getElem?_map, hai]
      rfl
    · rw [helig]
      exact hdec
    · exact hlt
    · intro v hv
      rw [helig] at hv
      exact hle v hv

/-- Witness for C9 at a concrete input: one applicant, one eligible unit. -/
theorem c9_one_row_per_applicant_first_best_witness :
    (run_best_fit [exC8Unit] [exC8App] ["Floor Plan"]).length = 1 :=
  (c9_one_row_per_applicant_first_best [exC8Unit] [exC8App] ["Floor Plan"] (by decide)).1

/-- C10: when the persisted units table has no `Matched` column and a
cross-join run produces at least one pair, the written-back table gains a
`Matched` column holding `"Matched"` on matched units and a missing value
(not `"Available"`) elsewhere, and the unmatched rows then fail the
`Matched == "Available"` filter of any subsequent run. -/
theorem c10_created_matched_column_excludes_others
    (units waitlist full m p : Df) (hrect : Df.Rect full)
    (hnocol : "Matched" ∉ full.header)
    (hrun : run_matching_logic units waitlist full = Except.ok ⟨m, p⟩)
    (hne : m.rows ≠ []) :
    p.header = full.header ++ ["Matched"] ∧
    ∃ vs, getColVals m "Unit_unit" = some vs ∧
      ∀ (i : Nat) (r0 : List Cell), full.rows[i]? = some r0 →
        (astypeStr (cellByName full.header r0 "Unit") ∈ uniqueFirst (vs.map astypeStr) →
          p.rows[i]? = some (r0 ++ [some "Matched"])) ∧
        (astypeStr (cellByName full.header r0 "Unit") ∉ uniqueFirst (vs.map astypeStr) →
          p.rows[i]? = some (r0 ++ [none]) ∧
          cellByName p.header (r0 ++ [none]) "Matched" = none ∧
          (r0 ++ [none]) ∉ (availFilter (ensureMatched p)).rows) := by
  obtain ⟨vs, hvs, hmark⟩ := run_ok_nonempty hrun hne
  obtain ⟨hhdr, hrows⟩ := markMatched_append hnocol hmark
  refine ⟨hhdr, vs, hvs, fun i r0 hi => ⟨fun hin => ?_, fun hnin => ?_⟩⟩
  · have h1 := hrows i r0 hi
    rw [if_pos hin] at h1
    exact h1
  · have h1 := hrows i r0 hi
    rw [if_neg hnin] at h1
    have hr0len : r0.length = full.header.length :=
      hrect r0 (List.getElem?_mem hi)
    have hcellnone : cellByName p.header (r0 ++ [none]) "Matched" = none := by
      rw [hhdr]
      exact cellByName_append_self _ hnocol hr0len
    refine ⟨h1, hcellnone, ?_⟩
    have hpm : "Matched" ∈ p.header := by rw [hhdr]; simp
    rw [ensureMatched, if_pos hpm]
    intro hmem
    have hpred := (List.mem_filter.mp hmem).2
    rw [hcellnone] at hpred
    simp [astypeStr] at hpred

/-- Witness for C10 at a concrete input: the persisted table has no
`Matched` column, `U1` is matched, the extra unit `U2` receives a missing
`Matched` value and is excluded by the availability filter. -/
theorem c10_created_matched_column_excludes_others_witness :
    exPersistedNoCol.header = exFullNoCol.header ++ ["Matched"] ∧
    ∃ vs, getColVals exMatchesNoCol "Unit_unit" = some vs ∧
      ∀ (i : Nat) (r0 : List Cell), exFullNoCol.rows[i]? = some r0 →
        (astypeStr (cellByName exFullNoCol.header r0 "Unit") ∈ uniqueFirst (vs.map astypeStr) →
          exPersistedNoCol.rows[i]? = some (r0 ++ [some "Matched"])) ∧
        (astypeStr (cellByName exFullNoCol.header r0 "Unit") ∉ uniqueFirst (vs.map astypeStr) →
          exPersistedNoCol.rows[i]? = some (r0 ++ [none]) ∧
          cellByName exPersistedNoCol.header (r0 ++ [none]) "Matched" = none ∧
          (r0 ++ [none]) ∉ (availFilter (ensureMatched exPersistedNoCol)).rows) :=
  c10_created_matched_column_excludes_others exUnitsNoCol exWait1U exFullNoCol
    exMatchesNoCol exPersistedNoCol (by decide) (by decide) rfl (by decide)

end PropertyMatcher
